import Mathlib

/-
Verification of the contacts-cli Contact Sync Pipeline.

The JavaScript source is shallowly embedded:
- JSON values (the shape of contact records handled by the tool) are the
  mutual inductive `Json` / `JsonList` / `JsonFields`; a JS object is a
  finite key/value binding list (JS object keys are unique; the operations
  below are deterministic lifts to binding lists).
- In-place mutation (`delete obj.k`, `obj.k = v`) becomes explicit
  rebinding of the field list; the caller-visible state after a call that
  mutates its argument is modelled explicitly (`processContactState`).
- Throwing code (a JS TypeError) is modelled with `Option`: `none` is an
  uncaught exception.
- The Node event loop of `batchCreateContacts` (fire-and-forget promises,
  `await setTimeout`) is modelled by explicit firing/settling times, see
  the Batch Writer section.
-/

namespace ContactsCLI

/-! ### JSON data model -/

mutual

inductive Json where
  | null : Json
  | bool (b : Bool) : Json
  | num (n : Int) : Json
  | str (s : String) : Json
  | arr (xs : JsonList) : Json
  | obj (fs : JsonFields) : Json
  deriving DecidableEq

inductive JsonList where
  | nil : JsonList
  | cons (hd : Json) (tl : JsonList) : JsonList
  deriving DecidableEq

inductive JsonFields where
  | nil : JsonFields
  | cons (k : String) (v : Json) (tl : JsonFields) : JsonFields
  deriving DecidableEq

end

/-- Property read `o[k]`: the first binding of `k` (JS objects have unique
keys, so first = the binding); `none` is JS `undefined`. -/
def lookup : JsonFields → String → Option Json
  | .nil, _ => Option.none
  | .cons k v tl, key => if k = key then some v else lookup tl key

def hasKey (fs : JsonFields) (k : String) : Bool :=
  (lookup fs k).isSome

/-- `delete o[k]`: removes the binding of `k` (every binding of `k` on a
duplicate-key list, which JS cannot produce). -/
def delK (key : String) : JsonFields → JsonFields
  | .nil => .nil
  | .cons k v tl => if k = key then delK key tl else .cons k v (delK key tl)

/-- Property write `o[k] = v`: overwrites the value at `k` keeping its
position, or appends a new binding at the end, as JS assignment does. -/
def setK (key : String) (v : Json) : JsonFields → JsonFields
  | .nil => .cons key v .nil
  | .cons k w tl => if k = key then .cons k v tl else .cons k w (setK key v tl)

def lookupTop : Json → String → Option Json
  | .obj fs, k => lookup fs k
  | _, _ => Option.none

def hasKeyTop (j : Json) (k : String) : Bool :=
  (lookupTop j k).isSome

/-- `typeof v === "object"`; in JS this is true for `null` as well. -/
def isObjectType : Json → Bool
  | .null => true
  | .arr _ => true
  | .obj _ => true
  | _ => false

/-- JS truthiness of a JSON value (`NaN` cannot occur in parsed JSON). -/
def truthy : Json → Bool
  | .null => false
  | .bool b => b
  | .num n => n ≠ 0
  | .str s => s ≠ ""
  | .arr _ => true
  | .obj _ => true

/-! ### objectCleaner (src/bin/contacts.js, lines 46-56)

For every key of the object: if the key is `id` or `resourceName` the
binding is deleted (and, the value now being `undefined`, not recursed
into); otherwise, if the value has `typeof === "object"` the cleaner
recurses into it. `typeof null === "object"` in JS, so a `null` value is
recursed into, and `Object.keys(null)` throws a TypeError: that throw is
the `none` result. Array values are object-typed; `Object.keys` of an
array walks its indices, so the cleaner visits every element. -/

mutual

def objectCleaner : Json → Option Json
  | .null => Option.none
  | .bool b => some (.bool b)
  | .num n => some (.num n)
  | .str s => some (.str s)
  | .arr xs => Option.map Json.arr (cleanList xs)
  | .obj fs => Option.map Json.obj (cleanFields fs)

def cleanList : JsonList → Option JsonList
  | .nil => some .nil
  | .cons v tl =>
      Option.bind (if isObjectType v then objectCleaner v else some v) (fun v' =>
        Option.map (JsonList.cons v') (cleanList tl))

def cleanFields : JsonFields → Option JsonFields
  | .nil => some .nil
  | .cons k v tl =>
      if k = "id" ∨ k = "resourceName" then cleanFields tl
      else
        Option.bind (if isObjectType v then objectCleaner v else some v) (fun v' =>
          Option.map (JsonFields.cons k v') (cleanFields tl))

end

/-! Cleanliness predicates used to reason about the cleaner's output. -/

mutual

def isCleanJson : Json → Bool
  | .null => false
  | .bool _ => true
  | .num _ => true
  | .str _ => true
  | .arr xs => isCleanList xs
  | .obj fs => isCleanFields fs

def isCleanList : JsonList → Bool
  | .nil => true
  | .cons v tl => isCleanJson v && isCleanList tl

def isCleanFields : JsonFields → Bool
  | .nil => true
  | .cons k v tl =>
      !(k = "id" || k = "resourceName") && isCleanJson v && isCleanFields tl

end

mutual

/-- No `id` or `resourceName` key occurs at any nesting depth. -/
def noIdResDeep : Json → Bool
  | .arr xs => noIdResDeepList xs
  | .obj fs => noIdResDeepFields fs
  | _ => true

def noIdResDeepList : JsonList → Bool
  | .nil => true
  | .cons v tl => noIdResDeep v && noIdResDeepList tl

def noIdResDeepFields : JsonFields → Bool
  | .nil => true
  | .cons k v tl =>
      !(k = "id" || k = "resourceName") && noIdResDeep v && noIdResDeepFields tl

end

/-! ### processContact (src/bin/contacts.js, lines 64-115) -/

/-- One optional-chaining step `o?.k` applied to the result of the
previous step: short-circuits to `undefined` on `undefined`/`null`, reads
the binding on an object, and yields `undefined` for a property of a
primitive or an array. -/
def optChain (o : Option Json) (k : String) : Option Json :=
  match o with
  | Option.none => Option.none
  | some .null => Option.none
  | some (.obj fs) => lookup fs k
  | some _ => Option.none

/-- The filter predicate `(entry) => entry.metadata?.source?.type === "CONTACT"`.
Property access on a `null` entry throws (`none` result); an `undefined`
anywhere later in the chain propagates and compares unequal to
`"CONTACT"`. -/
def isContactSourced : Json → Option Bool
  | .null => Option.none
  | .obj fs =>
      some (match optChain (optChain (lookup fs "metadata") "source") "type" with
            | some (.str t) => t == "CONTACT"
            | _ => false)
  | _ => some false

/-- `entries.filter((e) => e.metadata?.source?.type === "CONTACT")`. -/
def filterContactSourced : JsonList → Option JsonList
  | .nil => some .nil
  | .cons x tl =>
      Option.bind (isContactSourced x) (fun keep =>
        Option.map (fun tl' => if keep then JsonList.cons x tl' else tl')
          (filterContactSourced tl))

/-- Every entry of the list passed the CONTACT provenance predicate. -/
def AllContact : JsonList → Prop
  | .nil => True
  | .cons x tl => isContactSourced x = some true ∧ AllContact tl

/-- The `options` argument; `contactGroups` is `none` when absent
(`undefined`, falsy) and `some gs` when an array of group names. -/
structure Options where
  contactGroups : Option (List String)

def membershipEntry (g : String) : Json :=
  .obj (.cons "contactGroupMembership"
    (.obj (.cons "contactGroupResourceName" (.str ("contactGroups/" ++ g)) .nil)) .nil)

def toJsonList : List Json → JsonList
  | [] => .nil
  | x :: tl => .cons x (toJsonList tl)

/-- The entries concatenated after the default membership: none when
`options.contactGroups` is undefined (falsy, the concat is skipped), one
entry per group name otherwise. -/
def groupEntries : Option (List String) → JsonList
  | Option.none => .nil
  | some gs => toJsonList (gs.map membershipEntry)

/-- `defaultMembership` after the optional concat (lines 66-84): the
`contactGroups/myContacts` entry followed by one entry per requested group. -/
def defaultMembership (o : Options) : Json :=
  .arr (.cons (membershipEntry "myContacts") (groupEntries o.contactGroups))

/-- The six top-level `delete` statements (lines 88-97), innermost first:
metadata, resourceName, etag, photos, coverPhotos, metadata again. -/
def stripTop (fs : JsonFields) : JsonFields :=
  delK "metadata" (delK "coverPhotos" (delK "photos"
    (delK "etag" (delK "resourceName" (delK "metadata" fs)))))

/-- `if (contactData[key]) contactData[key] = contactData[key].filter(...)`:
skipped when the field is absent or falsy; when the field is a truthy
non-array, `.filter` is not a function and a TypeError is thrown (`none`). -/
def filterField (key : String) (fs : JsonFields) : Option JsonFields :=
  match lookup fs key with
  | Option.none => some fs
  | some v =>
      if truthy v then
        match v with
        | .arr xs =>
            Option.map (fun xs' => setK key (Json.arr xs') fs) (filterContactSourced xs)
        | _ => Option.none
      else some fs

/-- processContact: strip the read-only top-level fields, filter `names`
and `emailAddresses` to CONTACT-sourced entries, replace `memberships`
wholesale, then run `objectCleaner`. A non-object `contactData` throws
before completing (property access on `null`, or the strict-mode
`memberships` assignment on a primitive); an array input would attach a
non-index property, a state plain JSON cannot carry — records handled by
the tool are JSON objects. -/
def processContact (contactData : Json) (options : Options) : Option Json :=
  match contactData with
  | .obj fs =>
      Option.bind (filterField "names" (stripTop fs)) (fun fs1 =>
        Option.bind (filterField "emailAddresses" fs1) (fun fs2 =>
          objectCleaner (.obj (setK "memberships" (defaultMembership options) fs2))))
  | _ => Option.none

/-- Explicit-state view of a call to `processContact`: the source mutates
`contactData` in place (`delete`, assignments, `objectCleaner`) and
returns that same object, so after a successful call the caller's binding
and the returned value are one object. The pair is
(returned value, caller's record after the call). -/
def processContactState (r : Json) (o : Options) : Option (Json × Json) :=
  Option.map (fun ret => (ret, ret)) (processContact r o)

/-! ### Paginated fetcher
(listContacts: src/bin/contacts.js lines 11-38;
listContactGroups: src/bin/contact-groups.js lines 7-14)

A paginated resource is a finite sequence of pages held by the server; a
response carries one page and a `nextPageToken` that is present (truthy)
exactly when a further page exists. -/

def CONTACTS_PAGE_SIZE : Nat := 1000
def GROUPS_PAGE_SIZE : Nat := 200

/-- The do/while loop of `listContacts`: request a page, append it, repeat
while the response carries a (truthy) `nextPageToken`. -/
def listContacts {ρ : Type} (pages : List (List ρ)) : List ρ :=
  match pages with
  | [] => []
  | p :: rest =>
      match rest with
      | [] => p
      | _ => p ++ listContacts rest

/-- `listContactGroups` issues exactly one `contactGroups.list` request
(pageSize 200) and returns `res.data`: only the first page, the
continuation token is never read. -/
def listContactGroups {ρ : Type} (pages : List (List ρ)) : List ρ :=
  match pages with
  | [] => []
  | p :: _ => p

/-! ### Batch writer (src/bin/contacts.js, lines 146-191)

The loop body fires `people.people.batchCreateContacts(...)` and attaches
`.then`/`.catch` callbacks WITHOUT awaiting the promise, then awaits a
5000 ms timer. Embedding of the event loop, with the synchronous work
between awaits taking no time:
- batch `j` is fired at `fireTime j = j * 5000`;
- its promise settles at `settleTime delay j = fireTime j + delay j`,
  where `delay j` is the network round-trip for batch `j`;
- the function returns at `returnTime n = n * 5000` (after the last
  iteration's timer), `n` the number of batches;
- a batch's `.then`/`.catch` callback has pushed into `results`/`failed`
  by the time the function returns exactly when its promise settled
  strictly before the return, during one of the loop's awaits; callbacks
  run in settle-time order (ties by batch index — concurrent settles have
  no specified order, and no theorem below depends on a tie). -/

def BATCH_SIZE : Nat := 25
def INTER_BATCH_DELAY_MS : Nat := 5000

/-- Number of iterations of `for (let i = 0; i < len; i += BATCH_SIZE)`. -/
def numBatches (len : Nat) : Nat := (len + BATCH_SIZE - 1) / BATCH_SIZE

/-- `processedContacts.slice(i, i + BATCH_SIZE)` for `i = 0, 25, 50, ...`. -/
def batches {α : Type} (l : List α) : List (List α) :=
  (List.range (numBatches l.length)).map (fun j => (l.drop (j * BATCH_SIZE)).take BATCH_SIZE)

def fireTime (j : Nat) : Nat := j * INTER_BATCH_DELAY_MS

def settleTime (delay : Nat → Nat) (j : Nat) : Nat := fireTime j + delay j

def returnTime (n : Nat) : Nat := n * INTER_BATCH_DELAY_MS

def sortInsert (key : Nat → Nat) (x : Nat) : List Nat → List Nat
  | [] => [x]
  | y :: tl => if key x ≤ key y then x :: y :: tl else y :: sortInsert key x tl

/-- Stable insertion sort by a key: the order in which the attached
callbacks actually run. -/
def sortByKey (key : Nat → Nat) : List Nat → List Nat
  | [] => []
  | x :: tl => sortInsert key x (sortByKey key tl)

/-- The loop of lines 164-184 on the already-processed records, for a
given network schedule: `outcome j` is batch `j`'s eventual resolution
(`.ok` with `res.data`, or `.error` with the rejection). Returns the
`(results, failed)` accumulators as they stand when the function returns:
`results` holds the `res.data` of each recorded fulfilled batch, `failed`
holds the batch itself for each recorded rejected batch. -/
def batchCreateRun {α ε ρ : Type} (processed : List α) (delay : Nat → Nat)
    (outcome : Nat → Except ε ρ) : List ρ × List (List α) :=
  let bs := batches processed
  let n := bs.length
  let settled := (List.range n).filter (fun j => settleTime delay j < returnTime n)
  let ran := sortByKey (settleTime delay) settled
  let results := ran.filterMap (fun j =>
    match outcome j with
    | .ok r => some r
    | .error _ => Option.none)
  let failed := ran.filterMap (fun j =>
    match outcome j with
    | .ok _ => Option.none
    | .error _ => some (bs.getD j []))
  (results, failed)

/-- `{ contactPerson: processContact(contact, options) }` (lines 148-152). -/
def wrapContactPerson (p : Json) : Json :=
  .obj (.cons "contactPerson" p .nil)

/-- `contacts.map((contact) => ({ contactPerson: processContact(contact, options) }))`;
a throw from `processContact` aborts the whole call. -/
def processAll (contacts : List Json) (o : Options) : Option (List Json) :=
  match contacts with
  | [] => some []
  | c :: tl =>
      Option.bind (processContact c o) (fun p =>
        Option.map (fun tl' => wrapContactPerson p :: tl') (processAll tl o))

/-- `batchCreateContacts`: process every contact, then run the batch loop. -/
def batchCreateContacts {ε ρ : Type} (contacts : List Json) (options : Options)
    (delay : Nat → Nat) (outcome : Nat → Except ε ρ) :
    Option (List ρ × List (List Json)) :=
  Option.map (fun processed => batchCreateRun processed delay outcome)
    (processAll contacts options)

/-! ### Import command `--limit` option
(src/unnamed/part_000 lines 88-91 and 116-120; src/bin/index.js lines 75-77)

The option is declared `-l, --limit` with no value placeholder, so
commander parses it as a boolean flag: `options.limit` is `true` when the
flag appears and `undefined` otherwise — a numeric argument is never bound
to it. -/

inductive CliOptVal where
  | undef : CliOptVal
  | flagTrue : CliOptVal
  deriving DecidableEq

/-- `if (options.limit) contacts = contacts.slice(0, options.limit)`:
`slice` converts its end argument with ToIntegerOrInfinity, and
`ToIntegerOrInfinity(true) = 1`, so the flag keeps only the first record. -/
def importTruncate {α : Type} (contacts : List α) (limit : CliOptVal) : List α :=
  match limit with
  | .undef => contacts
  | .flagTrue => contacts.take 1

/-! ### authorize (src/bin/auth.js, lines 19-41)

`authorize` wraps the token-file read, `JSON.parse` and client
construction in one try/catch; the catch sends `error.code === 'ENOENT'`
to the interactive flow (`getAccessToken`) and rethrows anything else.
`readResult` is the outcome of `fs.readFileSync` (a thrown error carries a
`code` such as `ENOENT` or `EACCES`); `parse` is `JSON.parse`, whose
SyntaxError carries no `code` property. -/

structure JsError where
  code : Option String
  deriving DecidableEq

inductive AuthOutcome where
  | client (token : Json) : AuthOutcome
  | interactive : AuthOutcome
  | threw (e : JsError) : AuthOutcome
  deriving DecidableEq

def jsonSyntaxError : JsError := ⟨Option.none⟩

/-- The catch block: interactive re-authorization on ENOENT, rethrow
otherwise. -/
def authCatch (e : JsError) : AuthOutcome :=
  if e.code = some "ENOENT" then .interactive else .threw e

def authorize (readResult : Except JsError String) (parse : String → Option Json) :
    AuthOutcome :=
  match readResult with
  | .error e => authCatch e
  | .ok s =>
      match parse s with
      | Option.none => authCatch jsonSyntaxError
      | some token => .client token

/-! ### Concrete inputs and outputs used by the claim theorems below -/

/-- 53 distinct sanitized-shape records, as in the spec's batch example. -/
def c1Contacts : List Json :=
  (List.range 53).map (fun j => Json.obj (.cons "nicknames" (.str (toString j)) .nil))

/-- Schedule: the second batch's promise settles 20 s after it is fired,
which is after the function's return at 15 s. -/
def c1Delay : Nat → Nat := fun j => if j = 1 then 20000 else 0

/-- The second batch rejects with a TransportError; the others fulfil. -/
def c1Outcome : Nat → Except Unit Nat :=
  fun j => if j = 1 then Except.error () else Except.ok j

/-- Schedule for the C2 run: the second batch's rejection arrives 30 s
after it is fired. -/
def c2Delay : Nat → Nat := fun j => if j = 1 then 30000 else 0

def c2Outcome : Nat → Except Unit Nat :=
  fun j => if j = 1 then Except.error () else Except.ok j

/-- A record carrying only a server-owned `etag` field. -/
def c4Record : Json := .obj (.cons "etag" (.str "x") .nil)

/-- What sanitizing `c4Record` produces: the `etag` is stripped and only
the default membership remains. -/
def c4Output : Json :=
  .obj (.cons "memberships" (.arr (.cons (membershipEntry "myContacts") .nil)) .nil)

/-- A record with server-owned top-level fields, a nested `id`, a
PROFILE-sourced name and a CONTACT-sourced name. -/
def c6Record : Json :=
  .obj (.cons "resourceName" (.str "people/1")
    (.cons "etag" (.str "E")
      (.cons "photos" (.arr (.cons (.obj (.cons "url" (.str "u") .nil)) .nil))
        (.cons "coverPhotos" (.arr .nil)
          (.cons "names" (.arr (.cons (.obj
              (.cons "metadata" (.obj (.cons "source"
                  (.obj (.cons "type" (.str "CONTACT") (.cons "id" (.str "1") .nil))) .nil))
                (.cons "displayName" (.str "Bob") .nil)))
            (.cons (.obj
              (.cons "metadata" (.obj (.cons "source"
                  (.obj (.cons "type" (.str "PROFILE") .nil)) .nil))
                (.cons "displayName" (.str "Rob") .nil))) .nil)))
            (.cons "x" (.obj (.cons "id" (.str "2") (.cons "y" (.num 3) .nil))) .nil))))))

/-- `processContact c6Record ⟨some ["a"]⟩`. -/
def c6Output : Json :=
  .obj (.cons "names" (.arr (.cons (.obj
      (.cons "metadata" (.obj (.cons "source"
          (.obj (.cons "type" (.str "CONTACT") .nil)) .nil))
        (.cons "displayName" (.str "Bob") .nil))) .nil))
    (.cons "x" (.obj (.cons "y" (.num 3) .nil))
      (.cons "memberships" (.arr (.cons (membershipEntry "myContacts")
        (.cons (membershipEntry "a") .nil))) .nil)))

/-- A record that already carries a membership, which must be discarded. -/
def c7Record : Json :=
  .obj (.cons "memberships"
    (.arr (.cons (.obj (.cons "contactGroupMembership"
      (.obj (.cons "contactGroupResourceName" (.str "contactGroups/old") .nil)) .nil)) .nil)) .nil)

/-- `processContact c7Record` with groups `["a", "b"]`. -/
def c7OutputAB : Json :=
  .obj (.cons "memberships" (.arr (.cons (membershipEntry "myContacts")
    (.cons (membershipEntry "a") (.cons (membershipEntry "b") .nil)))) .nil)

/-- `processContact c7Record` with no groups (absent or empty list). -/
def c7OutputD : Json :=
  .obj (.cons "memberships" (.arr (.cons (membershipEntry "myContacts") .nil)) .nil)

/-! ### Lemmas about the field operations -/

theorem lookup_delK_self (key : String) (fs : JsonFields) :
    lookup (delK key fs) key = Option.none := by
  match fs with
  | .nil => simp [delK, lookup]
  | .cons k v tl =>
      by_cases h : k = key
      · simpa [delK, h] using lookup_delK_self key tl
      · simp [delK, h, lookup, lookup_delK_self key tl]

theorem lookup_delK_other (key k : String) (h : k ≠ key) (fs : JsonFields) :
    lookup (delK key fs) k = lookup fs k := by
  match fs with
  | .nil => rfl
  | .cons k0 v tl =>
      by_cases h0 : k0 = key
      · simp [delK, h0, lookup, Ne.symm h, lookup_delK_other key k h tl]
      · simp [delK, h0, lookup, lookup_delK_other key k h tl]

theorem delK_lookup_none (key : String) (fs : JsonFields)
    (h : lookup fs key = Option.none) : delK key fs = fs := by
  match fs with
  | .nil => rfl
  | .cons k v tl =>
      by_cases h0 : k = key
      · rw [lookup, if_pos h0] at h
        exact absurd h (by simp)
      · rw [lookup, if_neg h0] at h
        simp [delK, h0, delK_lookup_none key tl h]

theorem lookup_setK_self (key : String) (v : Json) (fs : JsonFields) :
    lookup (setK key v fs) key = some v := by
  match fs with
  | .nil => simp [setK, lookup]
  | .cons k w tl =>
      by_cases h : k = key
      · simp [setK, h, lookup]
      · simp [setK, h, lookup, lookup_setK_self key v tl]

theorem lookup_setK_other (key k : String) (h : k ≠ key) (v : Json) (fs : JsonFields) :
    lookup (setK key v fs) k = lookup fs k := by
  match fs with
  | .nil => simp [setK, lookup, Ne.symm h]
  | .cons k0 w tl =>
      by_cases h0 : k0 = key
      · simp [setK, h0, lookup, Ne.symm h]
      · simp [setK, h0, lookup, lookup_setK_other key k h v tl]

theorem setK_lookup_eq (key : String) (v : Json) (fs : JsonFields)
    (h : lookup fs key = some v) : setK key v fs = fs := by
  match fs with
  | .nil => simp [lookup] at h
  | .cons k w tl =>
      by_cases h0 : k = key
      · rw [lookup, if_pos h0] at h
        simp at h
        simp [setK, h0, h]
      · rw [lookup, if_neg h0] at h
        simp [setK, h0, setK_lookup_eq key v tl h]

/-! ### Lemmas about `cleanFields` lookups -/

theorem cleanFields_lookup_none (fs fs' : JsonFields) (k : String)
    (h : cleanFields fs = some fs') (hk : lookup fs k = Option.none) :
    lookup fs' k = Option.none := by
  match fs with
  | .nil =>
      simp [cleanFields] at h
      subst h
      simp [lookup]
  | .cons k0 v tl =>
      rw [lookup] at hk
      by_cases hkk : k0 = k
      · rw [if_pos hkk] at hk
        exact absurd hk (by simp)
      · rw [if_neg hkk] at hk
        rw [cleanFields] at h
        by_cases hb : k0 = "id" ∨ k0 = "resourceName"
        · rw [if_pos hb] at h
          exact cleanFields_lookup_none tl fs' k h hk
        · rw [if_neg hb] at h
          simp only [Option.bind_eq_some, Option.map_eq_some'] at h
          obtain ⟨v', _, tl', htl', rfl⟩ := h
          rw [lookup, if_neg hkk]
          exact cleanFields_lookup_none tl tl' k htl' hk

theorem cleanFields_lookup_some (fs fs' : JsonFields) (k : String) (v : Json)
    (h : cleanFields fs = some fs') (hk1 : k ≠ "id") (hk2 : k ≠ "resourceName")
    (hv : lookup fs k = some v) :
    ∃ v', (if isObjectType v then objectCleaner v else some v) = some v'
      ∧ lookup fs' k = some v' := by
  match fs with
  | .nil => simp [lookup] at hv
  | .cons k0 v0 tl =>
      rw [lookup] at hv
      rw [cleanFields] at h
      by_cases hb : k0 = "id" ∨ k0 = "resourceName"
      · have hkk : ¬ k0 = k := by
          rcases hb with hb | hb <;> subst hb <;>
            [exact fun hc => hk1 hc.symm; exact fun hc => hk2 hc.symm]
        rw [if_neg hkk] at hv
        rw [if_pos hb] at h
        exact cleanFields_lookup_some tl fs' k v h hk1 hk2 hv
      · rw [if_neg hb] at h
        simp only [Option.bind_eq_some, Option.map_eq_some'] at h
        obtain ⟨v0', hv0', tl', htl', rfl⟩ := h
        by_cases hkk : k0 = k
        · rw [if_pos hkk] at hv
          obtain rfl : v0 = v := by simpa using hv
          exact ⟨v0', hv0', by rw [lookup, if_pos hkk]⟩
        · rw [if_neg hkk] at hv
          obtain ⟨v', hv', hl⟩ := cleanFields_lookup_some tl tl' k v htl' hk1 hk2 hv
          exact ⟨v', hv', by rw [lookup, if_neg hkk]; exact hl⟩

/-! ### The cleaner's output is clean, and cleaning is the identity on
clean values -/

theorem isCleanJson_of_not_objectType (v : Json) (h : isObjectType v = false) :
    isCleanJson v = true := by
  cases v <;> simp_all [isObjectType, isCleanJson]

mutual

theorem objectCleaner_isClean (j c : Json) (h : objectCleaner j = some c) :
    isCleanJson c = true := by
  match j with
  | .null => simp [objectCleaner] at h
  | .bool b => simp [objectCleaner] at h; simp [← h, isCleanJson]
  | .num n => simp [objectCleaner] at h; simp [← h, isCleanJson]
  | .str s => simp [objectCleaner] at h; simp [← h, isCleanJson]
  | .arr xs =>
      rw [objectCleaner] at h
      simp only [Option.map_eq_some'] at h
      obtain ⟨ys, hys, rfl⟩ := h
      simpa [isCleanJson] using cleanList_isClean xs ys hys
  | .obj fs =>
      rw [objectCleaner] at h
      simp only [Option.map_eq_some'] at h
      obtain ⟨gs, hgs, rfl⟩ := h
      simpa [isCleanJson] using cleanFields_isClean fs gs hgs

theorem cleanList_isClean (xs ys : JsonList) (h : cleanList xs = some ys) :
    isCleanList ys = true := by
  match xs with
  | .nil => simp [cleanList] at h; simp [← h, isCleanList]
  | .cons v tl =>
      rw [cleanList] at h
      simp only [Option.bind_eq_some, Option.map_eq_some'] at h
      obtain ⟨v', hv', tl', htl', rfl⟩ := h
      rw [isCleanList, Bool.and_eq_true]
      refine ⟨?_, cleanList_isClean tl tl' htl'⟩
      by_cases ho : isObjectType v
      · rw [if_pos ho] at hv'
        exact objectCleaner_isClean v v' hv'
      · rw [if_neg ho] at hv'
        obtain rfl : v = v' := by simpa using hv'
        exact isCleanJson_of_not_objectType v (by simpa using ho)

theorem cleanFields_isClean (fs gs : JsonFields) (h : cleanFields fs = some gs) :
    isCleanFields gs = true := by
  match fs with
  | .nil => simp [cleanFields] at h; simp [← h, isCleanFields]
  | .cons k v tl =>
      rw [cleanFields] at h
      by_cases hb : k = "id" ∨ k = "resourceName"
      · rw [if_pos hb] at h
        exact cleanFields_isClean tl gs h
      · rw [if_neg hb] at h
        simp only [Option.bind_eq_some, Option.map_eq_some'] at h
        obtain ⟨v', hv', tl', htl', rfl⟩ := h
        push_neg at hb
        rw [isCleanFields, Bool.and_eq_true, Bool.and_eq_true]
        refine ⟨⟨?_, ?_⟩, cleanFields_isClean tl tl' htl'⟩
        · simp [hb.1, hb.2]
        · by_cases ho : isObjectType v
          · rw [if_pos ho] at hv'
            exact objectCleaner_isClean v v' hv'
          · rw [if_neg ho] at hv'
            obtain rfl : v = v' := by simpa using hv'
            exact isCleanJson_of_not_objectType v (by simpa using ho)

end

mutual

theorem isClean_objectCleaner (j : Json) (h : isCleanJson j = true) :
    objectCleaner j = some j := by
  match j with
  | .null => simp [isCleanJson] at h
  | .bool b => rfl
  | .num n => rfl
  | .str s => rfl
  | .arr xs =>
      rw [isCleanJson] at h
      rw [objectCleaner, isClean_cleanList xs h]
      rfl
  | .obj fs =>
      rw [isCleanJson] at h
      rw [objectCleaner, isClean_cleanFields fs h]
      rfl

theorem isClean_cleanList (xs : JsonList) (h : isCleanList xs = true) :
    cleanList xs = some xs := by
  match xs with
  | .nil => rfl
  | .cons v tl =>
      rw [isCleanList, Bool.and_eq_true] at h
      have hv : (if isObjectType v then objectCleaner v else some v) = some v := by
        by_cases ho : isObjectType v
        · rw [if_pos ho]
          exact isClean_objectCleaner v h.1
        · rw [if_neg ho]
      rw [cleanList, hv, isClean_cleanList tl h.2]
      rfl

theorem isClean_cleanFields (fs : JsonFields) (h : isCleanFields fs = true) :
    cleanFields fs = some fs := by
  match fs with
  | .nil => rfl
  | .cons k v tl =>
      rw [isCleanFields, Bool.and_eq_true, Bool.and_eq_true] at h
      obtain ⟨⟨hk, hv⟩, htl⟩ := h
      have hb : ¬ (k = "id" ∨ k = "resourceName") := by
        simpa using hk
      have hv' : (if isObjectType v then objectCleaner v else some v) = some v := by
        by_cases ho : isObjectType v
        · rw [if_pos ho]
          exact isClean_objectCleaner v hv
        · rw [if_neg ho]
      rw [cleanFields, if_neg hb, hv', isClean_cleanFields tl htl]
      rfl

end

mutual

theorem isClean_noIdResDeep (j : Json) (h : isCleanJson j = true) :
    noIdResDeep j = true := by
  match j with
  | .null => simp [isCleanJson] at h
  | .bool b => rfl
  | .num n => rfl
  | .str s => rfl
  | .arr xs =>
      rw [isCleanJson] at h
      rw [noIdResDeep]
      exact isClean_noIdResDeepList xs h
  | .obj fs =>
      rw [isCleanJson] at h
      rw [noIdResDeep]
      exact isClean_noIdResDeepFields fs h

theorem isClean_noIdResDeepList (xs : JsonList) (h : isCleanList xs = true) :
    noIdResDeepList xs = true := by
  match xs with
  | .nil => rfl
  | .cons v tl =>
      rw [isCleanList, Bool.and_eq_true] at h
      rw [noIdResDeepList, Bool.and_eq_true]
      exact ⟨isClean_noIdResDeep v h.1, isClean_noIdResDeepList tl h.2⟩

theorem isClean_noIdResDeepFields (fs : JsonFields) (h : isCleanFields fs = true) :
    noIdResDeepFields fs = true := by
  match fs with
  | .nil => rfl
  | .cons k v tl =>
      rw [isCleanFields, Bool.and_eq_true, Bool.and_eq_true] at h
      obtain ⟨⟨hk, hv⟩, htl⟩ := h
      rw [noIdResDeepFields, Bool.and_eq_true, Bool.and_eq_true]
      exact ⟨⟨hk, isClean_noIdResDeep v hv⟩, isClean_noIdResDeepFields tl htl⟩

end

/-! ### Cleaning preserves CONTACT provenance of kept entries -/

theorem isContactSourced_clean (x x' : Json) (h : isContactSourced x = some true)
    (hc : objectCleaner x = some x') : isContactSourced x' = some true := by
  match x with
  | .null => simp [isContactSourced] at h
  | .bool b => simp [isContactSourced] at h
  | .num n => simp [isContactSourced] at h
  | .str s => simp [isContactSourced] at h
  | .arr xs => simp [isContactSourced] at h
  | .obj fs =>
      rw [isContactSourced] at h
      rw [objectCleaner] at hc
      simp only [Option.map_eq_some'] at hc
      obtain ⟨fs', hfs', rfl⟩ := hc
      cases hmd : lookup fs "metadata" with
      | none => rw [hmd] at h; simp [optChain] at h
      | some md =>
          rw [hmd] at h
          match md with
          | .null => simp [optChain] at h
          | .bool _ => simp [optChain] at h
          | .num _ => simp [optChain] at h
          | .str _ => simp [optChain] at h
          | .arr _ => simp [optChain] at h
          | .obj mfs =>
              rw [show optChain (some (Json.obj mfs)) "source" = lookup mfs "source" from rfl] at h
              cases hsrc : lookup mfs "source" with
              | none => rw [hsrc] at h; simp [optChain] at h
              | some src =>
                  rw [hsrc] at h
                  match src with
                  | .null => simp [optChain] at h
                  | .bool _ => simp [optChain] at h
                  | .num _ => simp [optChain] at h
                  | .str _ => simp [optChain] at h
                  | .arr _ => simp [optChain] at h
                  | .obj sfs =>
                      rw [show optChain (some (Json.obj sfs)) "type" = lookup sfs "type" from rfl] at h
                      cases hty : lookup sfs "type" with
                      | none => rw [hty] at h; simp at h
                      | some ty =>
                          rw [hty] at h
                          match ty with
                          | .null => simp at h
                          | .bool _ => simp at h
                          | .num _ => simp at h
                          | .arr _ => simp at h
                          | .obj _ => simp at h
                          | .str t =>
                              have hbt : (t == "CONTACT") = true := by simpa using h
                              obtain ⟨md', hmd', hl1⟩ :=
                                cleanFields_lookup_some fs fs' "metadata" (.obj mfs) hfs'
                                  (by decide) (by decide) hmd
                              rw [if_pos (show isObjectType (.obj mfs) = true from rfl)] at hmd'
                              rw [objectCleaner] at hmd'
                              simp only [Option.map_eq_some'] at hmd'
                              obtain ⟨mfs', hmfs', rfl⟩ := hmd'
                              obtain ⟨src', hsrc', hl2⟩ :=
                                cleanFields_lookup_some mfs mfs' "source" (.obj sfs) hmfs'
                                  (by decide) (by decide) hsrc
                              rw [if_pos (show isObjectType (.obj sfs) = true from rfl)] at hsrc'
                              rw [objectCleaner] at hsrc'
                              simp only [Option.map_eq_some'] at hsrc'
                              obtain ⟨sfs', hsfs', rfl⟩ := hsrc'
                              obtain ⟨ty', hty', hl3⟩ :=
                                cleanFields_lookup_some sfs sfs' "type" (.str t) hsfs'
                                  (by decide) (by decide) hty
                              rw [if_neg (by simp [isObjectType])] at hty'
                              obtain rfl : Json.str t = ty' := by simpa using hty'
                              rw [isContactSourced, hl1]
                              rw [show optChain (some (Json.obj mfs')) "source" = lookup mfs' "source" from rfl,
                                hl2]
                              rw [show optChain (some (Json.obj sfs')) "type" = lookup sfs' "type" from rfl,
                                hl3]
                              simpa using hbt

theorem isContactSourced_objType (x : Json) (h : isContactSourced x = some true) :
    isObjectType x = true := by
  match x with
  | .obj fs => rfl
  | .null => simp [isContactSourced] at h
  | .bool _ => simp [isContactSourced] at h
  | .num _ => simp [isContactSourced] at h
  | .str _ => simp [isContactSourced] at h
  | .arr _ => simp [isContactSourced] at h

theorem filterContactSourced_allContact (xs ys : JsonList)
    (h : filterContactSourced xs = some ys) : AllContact ys := by
  match xs with
  | .nil =>
      simp [filterContactSourced] at h
      rw [← h]
      trivial
  | .cons x tl =>
      rw [filterContactSourced] at h
      simp only [Option.bind_eq_some, Option.map_eq_some'] at h
      obtain ⟨keep, hkeep, tl', htl', heq⟩ := h
      cases keep with
      | false =>
          simp only [Bool.false_eq_true, if_false] at heq
          rw [← heq]
          exact filterContactSourced_allContact tl tl' htl'
      | true =>
          simp only [if_true] at heq
          rw [← heq]
          exact ⟨hkeep, filterContactSourced_allContact tl tl' htl'⟩

theorem allContact_filter (ys : JsonList) (h : AllContact ys) :
    filterContactSourced ys = some ys := by
  match ys with
  | .nil => rfl
  | .cons x tl =>
      obtain ⟨h1, h2⟩ := h
      rw [filterContactSourced, h1, allContact_filter tl h2]
      rfl

theorem allContact_cleanList (ys ys' : JsonList) (h : AllContact ys)
    (hc : cleanList ys = some ys') : AllContact ys' := by
  match ys with
  | .nil =>
      simp [cleanList] at hc
      rw [← hc]
      trivial
  | .cons x tl =>
      obtain ⟨h1, h2⟩ := h
      rw [cleanList] at hc
      simp only [Option.bind_eq_some, Option.map_eq_some'] at hc
      obtain ⟨x', hx', tl', htl', rfl⟩ := hc
      rw [if_pos (isContactSourced_objType x h1)] at hx'
      exact ⟨isContactSourced_clean x x' h1 hx',
        allContact_cleanList tl tl' h2 htl'⟩

/-! ### Lemmas about `filterField` -/

theorem filterField_lookup_other (key k : String) (hk : k ≠ key) (fs fs' : JsonFields)
    (h : filterField key fs = some fs') : lookup fs' k = lookup fs k := by
  rw [filterField] at h
  cases hl : lookup fs key with
  | none =>
      rw [hl] at h
      obtain rfl : fs = fs' := by simpa using h
      rfl
  | some v =>
      simp only [hl] at h
      by_cases ht : truthy v = true
      · rw [if_pos ht] at h
        match v with
        | .arr xs =>
            simp only [Option.map_eq_some'] at h
            obtain ⟨xs', _, rfl⟩ := h
            exact lookup_setK_other key k hk _ fs
        | .null => simp [truthy] at ht
        | .bool b => simp at h
        | .num n => simp at h
        | .str s => simp at h
        | .obj gs => simp at h
      · rw [if_neg ht] at h
        obtain rfl : fs = fs' := by simpa using h
        rfl

/-- If a key's filter succeeded in the first pass and the (possibly
rebound) value reached the cleaner unchanged, then re-filtering that key
on the cleaned fields is the identity. -/
theorem filterField_stable (key : String) (hk1 : key ≠ "id") (hk2 : key ≠ "resourceName")
    (fsA fsB fsC fsD : JsonFields)
    (h1 : filterField key fsA = some fsB)
    (hBC : lookup fsC key = lookup fsB key)
    (h2 : cleanFields fsC = some fsD) :
    filterField key fsD = some fsD := by
  rw [filterField] at h1
  cases hl : lookup fsA key with
  | none =>
      rw [hl] at h1
      obtain rfl : fsA = fsB := by simpa using h1
      have hn : lookup fsD key = Option.none :=
        cleanFields_lookup_none fsC fsD key h2 (by rw [hBC, hl])
      simp [filterField, hn]
  | some v =>
      simp only [hl] at h1
      by_cases ht : truthy v = true
      · rw [if_pos ht] at h1
        match v with
        | .null => simp [truthy] at ht
        | .bool b => simp at h1
        | .num n => simp at h1
        | .str s => simp at h1
        | .obj gs => simp at h1
        | .arr xs =>
            simp only [Option.map_eq_some'] at h1
            obtain ⟨ys, hys, rfl⟩ := h1
            have hlC : lookup fsC key = some (.arr ys) := by
              rw [hBC, lookup_setK_self]
            obtain ⟨w, hw, hlD⟩ :=
              cleanFields_lookup_some fsC fsD key (.arr ys) h2 hk1 hk2 hlC
            rw [if_pos (show isObjectType (Json.arr ys) = true from rfl)] at hw
            rw [objectCleaner] at hw
            simp only [Option.map_eq_some'] at hw
            obtain ⟨ys', hys', rfl⟩ := hw
            have hall : AllContact ys' :=
              allContact_cleanList ys ys'
                (filterContactSourced_allContact xs ys hys) hys'
            simp [filterField, hlD, truthy, allContact_filter ys' hall,
              setK_lookup_eq key (Json.arr ys') fsD hlD]
      · rw [if_neg ht] at h1
        obtain rfl : fsA = fsB := by simpa using h1
        have hlC : lookup fsC key = some v := by rw [hBC, hl]
        obtain ⟨v', hv', hlD⟩ :=
          cleanFields_lookup_some fsC fsD key v h2 hk1 hk2 hlC
        match v with
        | .null =>
            rw [if_pos (show isObjectType Json.null = true from rfl)] at hv'
            rw [objectCleaner] at hv'
            exact absurd hv' (by simp)
        | .bool b =>
            rw [if_neg (by simp [isObjectType])] at hv'
            obtain rfl : Json.bool b = v' := by simpa using hv'
            simp [filterField, hlD, ht]
        | .num n =>
            rw [if_neg (by simp [isObjectType])] at hv'
            obtain rfl : Json.num n = v' := by simpa using hv'
            simp [filterField, hlD, ht]
        | .str s =>
            rw [if_neg (by simp [isObjectType])] at hv'
            obtain rfl : Json.str s = v' := by simpa using hv'
            simp [filterField, hlD, ht]
        | .arr xs => exact absurd rfl ht
        | .obj gs => exact absurd rfl ht

/-! ### Structure of a successful `processContact` run -/

theorem lookup_stripTop_none (fs : JsonFields) (k : String)
    (h : k = "metadata" ∨ k = "resourceName" ∨ k = "etag" ∨ k = "photos" ∨
      k = "coverPhotos") :
    lookup (stripTop fs) k = Option.none := by
  rw [stripTop]
  rcases h with rfl | rfl | rfl | rfl | rfl
  · rw [lookup_delK_self]
  · rw [lookup_delK_other "metadata" "resourceName" (by decide),
        lookup_delK_other "coverPhotos" "resourceName" (by decide),
        lookup_delK_other "photos" "resourceName" (by decide),
        lookup_delK_other "etag" "resourceName" (by decide),
        lookup_delK_self]
  · rw [lookup_delK_other "metadata" "etag" (by decide),
        lookup_delK_other "coverPhotos" "etag" (by decide),
        lookup_delK_other "photos" "etag" (by decide),
        lookup_delK_self]
  · rw [lookup_delK_other "metadata" "photos" (by decide),
        lookup_delK_other "coverPhotos" "photos" (by decide),
        lookup_delK_self]
  · rw [lookup_delK_other "metadata" "coverPhotos" (by decide),
        lookup_delK_self]

theorem processContact_obj (r : Json) (o : Options) (out : Json)
    (h : processContact r o = some out) : ∃ fs, r = .obj fs := by
  match r with
  | .obj fs => exact ⟨fs, rfl⟩
  | .null => simp [processContact] at h
  | .bool _ => simp [processContact] at h
  | .num _ => simp [processContact] at h
  | .str _ => simp [processContact] at h
  | .arr _ => simp [processContact] at h

theorem processContact_inv (fs : JsonFields) (o : Options) (out : Json)
    (h : processContact (.obj fs) o = some out) :
    ∃ fs1 fs2 fs3,
      filterField "names" (stripTop fs) = some fs1 ∧
      filterField "emailAddresses" fs1 = some fs2 ∧
      cleanFields (setK "memberships" (defaultMembership o) fs2) = some fs3 ∧
      out = .obj fs3 := by
  rw [processContact] at h
  simp only [Option.bind_eq_some] at h
  obtain ⟨fs1, h1, fs2, h2, hcl⟩ := h
  rw [objectCleaner] at hcl
  simp only [Option.map_eq_some'] at hcl
  obtain ⟨fs3, h3, heq⟩ := hcl
  exact ⟨fs1, fs2, fs3, h1, h2, h3, heq.symm⟩

theorem processContact_top_absent (r : Json) (o : Options) (out : Json)
    (h : processContact r o = some out) (k : String)
    (h1 : k ≠ "names") (h2 : k ≠ "emailAddresses") (h3 : k ≠ "memberships")
    (hks : k = "metadata" ∨ k = "resourceName" ∨ k = "etag" ∨ k = "photos" ∨
      k = "coverPhotos") :
    lookupTop out k = Option.none := by
  obtain ⟨fs, rfl⟩ := processContact_obj r o out h
  obtain ⟨fs1, fs2, fs3, hf1, hf2, hc, rfl⟩ := processContact_inv fs o out h
  have e0 : lookup (stripTop fs) k = Option.none := lookup_stripTop_none fs k hks
  have e1 : lookup fs1 k = Option.none := by
    rw [filterField_lookup_other "names" k h1 _ _ hf1, e0]
  have e2 : lookup fs2 k = Option.none := by
    rw [filterField_lookup_other "emailAddresses" k h2 _ _ hf2, e1]
  have e3 : lookup (setK "memberships" (defaultMembership o) fs2) k = Option.none := by
    rw [lookup_setK_other "memberships" k h3, e2]
  have e4 : lookup fs3 k = Option.none := cleanFields_lookup_none _ _ k hc e3
  simpa [lookupTop] using e4

theorem isClean_membershipEntry (g : String) :
    isCleanJson (membershipEntry g) = true := by
  simp [membershipEntry, isCleanJson, isCleanFields]

theorem isClean_groupEntriesList (gs : List String) :
    isCleanList (toJsonList (gs.map membershipEntry)) = true := by
  induction gs with
  | nil => rfl
  | cons g tl ih => simp [toJsonList, isCleanList, isClean_membershipEntry g, ih]

theorem isClean_defaultMembership (o : Options) :
    isCleanJson (defaultMembership o) = true := by
  match ho : o.contactGroups with
  | Option.none =>
      rw [defaultMembership, ho]
      decide
  | some gs =>
      rw [defaultMembership, ho]
      simp [isCleanJson, isCleanList, groupEntries, membershipEntry,
        isCleanFields, isClean_groupEntriesList]

theorem processContact_memberships (r : Json) (o : Options) (out : Json)
    (h : processContact r o = some out) :
    lookupTop out "memberships" = some (defaultMembership o) := by
  obtain ⟨fs, rfl⟩ := processContact_obj r o out h
  obtain ⟨fs1, fs2, fs3, hf1, hf2, hc, rfl⟩ := processContact_inv fs o out h
  have hset : lookup (setK "memberships" (defaultMembership o) fs2) "memberships"
      = some (defaultMembership o) := lookup_setK_self _ _ _
  obtain ⟨v', hv', hl⟩ :=
    cleanFields_lookup_some _ _ "memberships" (defaultMembership o) hc
      (by decide) (by decide) hset
  have hobj : isObjectType (defaultMembership o) = true := rfl
  rw [if_pos hobj, isClean_objectCleaner _ (isClean_defaultMembership o)] at hv'
  obtain rfl : defaultMembership o = v' := by simpa using hv'
  simpa [lookupTop] using hl

/-! ### Pagination helper -/

theorem listContacts_eq_flatten {ρ : Type} (pages : List (List ρ)) :
    listContacts pages = pages.flatten := by
  induction pages with
  | nil => rfl
  | cons p rest ih =>
      cases rest with
      | nil => simp [listContacts]
      | cons q rest' =>
          show p ++ listContacts (q :: rest') = (p :: q :: rest').flatten
          rw [ih]
          simp

/-! ### The claims -/

/-- Claim C1, code_bug evidence: with 53 records the writer does build and
fire exactly 3 batches of sizes 25, 25 and 3 in input order, but because
each batch's promise is fired without being awaited, a second-batch
rejection that settles after the final inter-batch wait (here 20 s after
firing, versus a return at 15 s) is never recorded: the returned `failed`
list is empty rather than holding that batch's 25 records, and `results`
holds only the first and third batches' response data. -/
theorem claim_C1_batch_failure_accounting :
    batchCreateContacts c1Contacts ⟨Option.none⟩ c1Delay c1Outcome
      = some ([0, 2], ([] : List (List Json)))
    ∧ Option.map (fun p => (batches p).map List.length) (processAll c1Contacts ⟨Option.none⟩)
      = some [25, 25, 3]
    ∧ Option.map (fun p => (batches p).flatten) (processAll c1Contacts ⟨Option.none⟩)
      = processAll c1Contacts ⟨Option.none⟩ := by
  refine ⟨?_, ?_, ?_⟩ <;> decide

/-- Claim C2, code_bug evidence: the fixed 5-second wait starts when a
batch is fired, not when its submission resolves: the third batch fires at
10 s while the second batch's submission is still pending (it settles at
35 s), and at the moment the function returns only 2 of the 3 batches'
outcomes have been recorded — the rejection is missing from `failed`. -/
theorem claim_C2_delay_not_awaiting :
    fireTime 2 < settleTime c2Delay 1
    ∧ (batchCreateRun (List.range 53) c2Delay c2Outcome).2 = ([] : List (List Nat))
    ∧ (batchCreateRun (List.range 53) c2Delay c2Outcome).1.length
        + (batchCreateRun (List.range 53) c2Delay c2Outcome).2.length
        < (batches (List.range 53)).length := by
  refine ⟨?_, ?_, ?_⟩ <;> decide

/-- Claim C3, code_bug evidence: `listContacts` follows the continuation
cursor and returns the concatenation of every page in server order (shown
in general and on the spec's 2/2/1 example), but `listContactGroups`
issues a single request and returns only the first page, so a group set
spanning two pages is not retrieved completely. -/
theorem claim_C3_pagination :
    (∀ (pages : List (List Nat)), listContacts pages = pages.flatten)
    ∧ listContacts [[1, 2], [3, 4], [5]] = [1, 2, 3, 4, 5]
    ∧ listContactGroups ([[1], [2]] : List (List Nat)) = [1]
    ∧ listContactGroups ([[1], [2]] : List (List Nat))
        ≠ ([[1], [2]] : List (List Nat)).flatten :=
  ⟨fun pages => listContacts_eq_flatten pages, by decide, by decide, by decide⟩

/-- Claim C4 counterexample: sanitize mutates its argument in place, so
after a successful call the caller's record is the sanitized object, not
the original: for the record `{etag: "x"}` the caller's record afterwards
is `{memberships: [default]}`, which differs from the input. -/
theorem claim_C4_counterexample :
    processContactState c4Record ⟨Option.none⟩ = some (c4Output, c4Output)
    ∧ c4Output ≠ c4Record := by
  refine ⟨?_, ?_⟩ <;> decide

/-- Claim C4 as amended: `processContact` returns the very object it
mutated, so after a successful call the caller's record equals the
returned sanitized record; whenever the input still carried a top-level
`etag`, the caller's record therefore differs from the original. -/
theorem claim_C4_amended_mutation (r : Json) (o : Options) (ret after : Json)
    (h : processContactState r o = some (ret, after)) :
    after = ret ∧ (hasKeyTop r "etag" = true → after ≠ r) := by
  rw [processContactState] at h
  simp only [Option.map_eq_some'] at h
  obtain ⟨out, hout, heq⟩ := h
  injection heq with h1 h2
  subst h1
  subst h2
  refine ⟨rfl, fun hr hcontra => ?_⟩
  subst hcontra
  have habs : lookupTop out "etag" = Option.none :=
    processContact_top_absent out o out hout "etag" (by decide) (by decide) (by decide)
      (Or.inr (Or.inr (Or.inl rfl)))
  simp [hasKeyTop, habs] at hr

/-- Witness for claim C4's amended theorem at the concrete record
`{etag: "x"}`. -/
theorem claim_C4_witness :
    c4Output = c4Output ∧ (hasKeyTop c4Record "etag" = true → c4Output ≠ c4Record) :=
  claim_C4_amended_mutation c4Record ⟨Option.none⟩ c4Output c4Output (by decide)

/-- Claim C5, code_bug evidence: sanitize is not total: on the record
`{"a": null}` the cleaner recurses into the null value (in JS
`typeof null === "object"`) and `Object.keys(null)` throws a TypeError,
so `processContact` fails instead of dropping the malformed field. -/
theorem claim_C5_null_subobject_throws :
    processContact (.obj (.cons "a" Json.null .nil)) ⟨Option.none⟩ = Option.none
    ∧ objectCleaner Json.null = Option.none :=
  ⟨rfl, rfl⟩

/-- Claim C6: every record returned by sanitize carries no `resourceName`,
`etag`, `photos` or `coverPhotos` field at top level, and no `id` or
`resourceName` key at any nesting depth. -/
theorem claim_C6_no_server_fields (r : Json) (o : Options) (out : Json)
    (h : processContact r o = some out) :
    hasKeyTop out "resourceName" = false ∧ hasKeyTop out "etag" = false
    ∧ hasKeyTop out "photos" = false ∧ hasKeyTop out "coverPhotos" = false
    ∧ noIdResDeep out = true := by
  have hres := processContact_top_absent r o out h "resourceName"
    (by decide) (by decide) (by decide) (Or.inr (Or.inl rfl))
  have hetag := processContact_top_absent r o out h "etag"
    (by decide) (by decide) (by decide) (Or.inr (Or.inr (Or.inl rfl)))
  have hph := processContact_top_absent r o out h "photos"
    (by decide) (by decide) (by decide) (Or.inr (Or.inr (Or.inr (Or.inl rfl))))
  have hcp := processContact_top_absent r o out h "coverPhotos"
    (by decide) (by decide) (by decide) (Or.inr (Or.inr (Or.inr (Or.inr rfl))))
  obtain ⟨fs, rfl⟩ := processContact_obj r o out h
  obtain ⟨fs1, fs2, fs3, _, _, hc, rfl⟩ := processContact_inv fs o out h
  have hdeep : noIdResDeep (.obj fs3) = true := by
    rw [noIdResDeep]
    exact isClean_noIdResDeepFields fs3 (cleanFields_isClean _ _ hc)
  exact ⟨by simp [hasKeyTop, hres], by simp [hasKeyTop, hetag],
    by simp [hasKeyTop, hph], by simp [hasKeyTop, hcp], hdeep⟩

/-- Witness for claim C6 at a record that carries every banned field. -/
theorem claim_C6_witness :
    hasKeyTop c6Output "resourceName" = false ∧ hasKeyTop c6Output "etag" = false
    ∧ hasKeyTop c6Output "photos" = false ∧ hasKeyTop c6Output "coverPhotos" = false
    ∧ noIdResDeep c6Output = true :=
  claim_C6_no_server_fields c6Record ⟨some ["a"]⟩ c6Output (by decide)

/-- Claim C7: the sanitized record's membership sequence is exactly the
default entry followed by one entry per requested group — `[default, a, b]`
for groups `["a", "b"]`, and `[default]` when the option is absent or the
empty list — regardless of the memberships on the input record. -/
theorem claim_C7_membership_replacement (r : Json) (out : Json) :
    (processContact r ⟨some ["a", "b"]⟩ = some out →
      lookupTop out "memberships" = some (Json.arr (.cons
        (.obj (.cons "contactGroupMembership" (.obj (.cons "contactGroupResourceName"
          (.str "contactGroups/myContacts") .nil)) .nil))
        (.cons (.obj (.cons "contactGroupMembership" (.obj (.cons "contactGroupResourceName"
          (.str "contactGroups/a") .nil)) .nil))
          (.cons (.obj (.cons "contactGroupMembership" (.obj (.cons "contactGroupResourceName"
            (.str "contactGroups/b") .nil)) .nil)) .nil)))))
    ∧ (processContact r ⟨Option.none⟩ = some out →
      lookupTop out "memberships" = some (Json.arr (.cons
        (.obj (.cons "contactGroupMembership" (.obj (.cons "contactGroupResourceName"
          (.str "contactGroups/myContacts") .nil)) .nil)) .nil)))
    ∧ (processContact r ⟨some []⟩ = some out →
      lookupTop out "memberships" = some (Json.arr (.cons
        (.obj (.cons "contactGroupMembership" (.obj (.cons "contactGroupResourceName"
          (.str "contactGroups/myContacts") .nil)) .nil)) .nil))) := by
  refine ⟨fun h => ?_, fun h => ?_, fun h => ?_⟩
  · rw [processContact_memberships r _ out h]
    decide
  · rw [processContact_memberships r _ out h]
    decide
  · rw [processContact_memberships r _ out h]
    decide

/-- Witness for claim C7 at a record that already carries a membership:
the input membership is discarded in every case. -/
theorem claim_C7_witness :
    lookupTop c7OutputAB "memberships" = some (Json.arr (.cons
      (.obj (.cons "contactGroupMembership" (.obj (.cons "contactGroupResourceName"
        (.str "contactGroups/myContacts") .nil)) .nil))
      (.cons (.obj (.cons "contactGroupMembership" (.obj (.cons "contactGroupResourceName"
        (.str "contactGroups/a") .nil)) .nil))
        (.cons (.obj (.cons "contactGroupMembership" (.obj (.cons "contactGroupResourceName"
          (.str "contactGroups/b") .nil)) .nil)) .nil))))
    ∧ lookupTop c7OutputD "memberships" = some (Json.arr (.cons
      (.obj (.cons "contactGroupMembership" (.obj (.cons "contactGroupResourceName"
        (.str "contactGroups/myContacts") .nil)) .nil)) .nil)) :=
  ⟨(claim_C7_membership_replacement c7Record c7OutputAB).1 (by decide),
   (claim_C7_membership_replacement c7Record c7OutputD).2.1 (by decide)⟩

/-- Claim C8: sanitization is idempotent: running `processContact` on its
own successful output (with the same options) returns that output
unchanged, and a failing run stays failing. -/
theorem claim_C8_sanitize_idempotent (r : Json) (o : Options) :
    (processContact r o).bind (fun x => processContact x o) = processContact r o := by
  cases hr : processContact r o with
  | none => rfl
  | some out =>
      show processContact out o = some out
      obtain ⟨fs, rfl⟩ := processContact_obj r o out hr
      obtain ⟨fs1, fs2, fs3, hf1, hf2, hc, rfl⟩ := processContact_inv fs o out hr
      have hmet : lookup fs3 "metadata" = Option.none := by
        simpa [lookupTop] using processContact_top_absent _ o _ hr "metadata"
          (by decide) (by decide) (by decide) (Or.inl rfl)
      have hres : lookup fs3 "resourceName" = Option.none := by
        simpa [lookupTop] using processContact_top_absent _ o _ hr "resourceName"
          (by decide) (by decide) (by decide) (Or.inr (Or.inl rfl))
      have hetag : lookup fs3 "etag" = Option.none := by
        simpa [lookupTop] using processContact_top_absent _ o _ hr "etag"
          (by decide) (by decide) (by decide) (Or.inr (Or.inr (Or.inl rfl)))
      have hph : lookup fs3 "photos" = Option.none := by
        simpa [lookupTop] using processContact_top_absent _ o _ hr "photos"
          (by decide) (by decide) (by decide) (Or.inr (Or.inr (Or.inr (Or.inl rfl))))
      have hcp : lookup fs3 "coverPhotos" = Option.none := by
        simpa [lookupTop] using processContact_top_absent _ o _ hr "coverPhotos"
          (by decide) (by decide) (by decide) (Or.inr (Or.inr (Or.inr (Or.inr rfl))))
      have hstrip : stripTop fs3 = fs3 := by
        rw [stripTop, delK_lookup_none "metadata" fs3 hmet,
            delK_lookup_none "resourceName" fs3 hres,
            delK_lookup_none "etag" fs3 hetag,
            delK_lookup_none "photos" fs3 hph,
            delK_lookup_none "coverPhotos" fs3 hcp,
            delK_lookup_none "metadata" fs3 hmet]
      have hnames : filterField "names" fs3 = some fs3 :=
        filterField_stable "names" (by decide) (by decide) (stripTop fs) fs1 _ fs3 hf1
          (by rw [lookup_setK_other "memberships" "names" (by decide),
                filterField_lookup_other "emailAddresses" "names" (by decide) _ _ hf2])
          hc
      have hemails : filterField "emailAddresses" fs3 = some fs3 :=
        filterField_stable "emailAddresses" (by decide) (by decide) fs1 fs2 _ fs3 hf2
          (lookup_setK_other "memberships" "emailAddresses" (by decide) _ _) hc
      have hm : lookup fs3 "memberships" = some (defaultMembership o) := by
        simpa [lookupTop] using processContact_memberships _ o _ hr
      have hsetm : setK "memberships" (defaultMembership o) fs3 = fs3 :=
        setK_lookup_eq _ _ _ hm
      have hcln : cleanFields fs3 = some fs3 :=
        isClean_cleanFields fs3 (cleanFields_isClean _ _ hc)
      rw [processContact]
      simp [hstrip, hnames, hemails, hsetm, objectCleaner, hcln]

/-- Claim C9, code_bug evidence: the `--limit` option is declared without
a value placeholder, so commander parses it as a boolean flag; with the
flag present `contacts.slice(0, true)` keeps exactly the first record (no
count N can be bound at all), and with the flag absent every record is
kept. -/
theorem claim_C9_limit_is_boolean :
    importTruncate [10, 20, 30, 40, 50, 60, 70, 80, 90, 100] CliOptVal.flagTrue = [10]
    ∧ ∀ (l : List Nat), importTruncate l CliOptVal.undef = l :=
  ⟨by decide, fun _ => rfl⟩

/-- Claim C10: `authorize` falls back to the interactive flow exactly when
the token-file read fails with ENOENT; a read error with any other code is
rethrown unchanged, and a JSON.parse failure on a corrupt token file is
rethrown (its SyntaxError carries no code) instead of re-authorizing. -/
theorem claim_C10_auth_fallback (rr : Except JsError String)
    (parse : String → Option Json) :
    (authorize rr parse = AuthOutcome.interactive ↔
      ∃ e, rr = Except.error e ∧ e.code = some "ENOENT")
    ∧ (∀ e, rr = Except.error e → e.code ≠ some "ENOENT" →
        authorize rr parse = AuthOutcome.threw e)
    ∧ (∀ s, rr = Except.ok s → parse s = Option.none →
        authorize rr parse = AuthOutcome.threw jsonSyntaxError) := by
  refine ⟨⟨?_, ?_⟩, ?_, ?_⟩
  · intro h
    match rr with
    | .error e =>
        rw [authorize, authCatch] at h
        by_cases hc : e.code = some "ENOENT"
        · exact ⟨e, rfl, hc⟩
        · rw [if_neg hc] at h
          simp at h
    | .ok s =>
        rw [authorize] at h
        cases hp : parse s with
        | none =>
            rw [hp] at h
            simp [authCatch, jsonSyntaxError] at h
        | some tok =>
            rw [hp] at h
            simp at h
  · rintro ⟨e, rfl, hc⟩
    simp [authorize, authCatch, hc]
  · intro e hrr hc
    subst hrr
    simp [authorize, authCatch, hc]
  · intro s hrr hp
    subst hrr
    simp [authorize, hp, authCatch, jsonSyntaxError]

/-- Witness for claim C10 at concrete read results: an absent token file,
a permission error, and a corrupt token file. -/
theorem claim_C10_witness :
    authorize (Except.error ⟨some "ENOENT"⟩) (fun _ => Option.none)
      = AuthOutcome.interactive
    ∧ authorize (Except.error ⟨some "EACCES"⟩) (fun _ => Option.none)
      = AuthOutcome.threw ⟨some "EACCES"⟩
    ∧ authorize (Except.ok "corrupt") (fun _ => Option.none)
      = AuthOutcome.threw jsonSyntaxError := by
  refine ⟨?_, ?_, ?_⟩
  · exact (claim_C10_auth_fallback _ _).1.mpr ⟨⟨some "ENOENT"⟩, rfl, rfl⟩
  · exact (claim_C10_auth_fallback _ _).2.1 ⟨some "EACCES"⟩ rfl (by decide)
  · exact (claim_C10_auth_fallback _ _).2.2 "corrupt" rfl rfl

end ContactsCLI
